import Mathlib

/-!
Verification of the plot-report-table builders of the CESM ocean
diagnostics plot plugins, a shallow embedding of
`diagnostics/diagnostics/ocn/Plots/cpllog_timeseries.py` (method
`CplLog._create_html`) and
`diagnostics/diagnostics/ocn/Plots/western_boundary.py` (method
`WesternBoundary._create_html`).

Python strings become `String`, Python lists become `List`, the tuple
cells `(col, linkName, content)` become `Nat × String × String`, an
`IndexError` on `plot_list[j]` and an exception raised by the
file-existence checker become `Except` errors that propagate and abort
the computation, exactly as a Python exception would.
-/

/-- Helper for the Python substring test: does the first character list
occur as a prefix of the second. -/
def matchesAt : List Char → List Char → Bool
  | [], _ => true
  | _ :: _, [] => false
  | x :: xs, y :: ys => (x == y) && matchesAt xs ys

/-- Helper for the Python substring test: does the first character list
occur contiguously inside the second. -/
def containsSub : List Char → List Char → Bool
  | n, [] => matchesAt n []
  | n, y :: ys => matchesAt n (y :: ys) || containsSub n ys

/-- Embedding of the Python expression `needle in hay` on strings:
substring containment. -/
def pyIn (needle hay : String) : Bool :=
  containsSub needle.toList hay.toList

/-- One cell of the report table built by `CplLog._create_html`: the
Python tuple `(column index, link name, content)`. -/
abbrev PlotTuple := Nat × String × String

/-- The per-plot data consumed by the table builder, read off the
attributes set in `CplLog.__init__`: the expected artifact base names
(`self._expectedPlots`), the row labels (`self._labels`) and the column
kind tags (`self._linkNames`). -/
structure PlotSpec where
  expectedPlots : List String
  labels : List String
  linkNames : List String

/-- The concrete attribute values set in `CplLog.__init__`. -/
def cplLogSpec : PlotSpec :=
  { expectedPlots := ["cplheatbudget", "cplfwbudget"]
    labels := ["Heat", "Freshwater"]
    linkNames := ["timeseries", "table"] }

/-- Modelled from the spec: the file-existence checker
`cesm_utils.cesmEnvLib.checkFile` is not under `src/`. Per the spec it
returns a pair `(ok, message)` for a present or simply-missing file and
may instead raise a distinct fault (an unexpected I/O error such as
permission denied), which we model as the `Except.error` case carrying
the fault message. -/
abbrev CheckFile := String → Except String (Bool × String)

/-- Lift of the spec's pure `fileExists : path -> bool` collaborator to a
checker that never faults. -/
def pureCheck (fileExists : String → Bool) : CheckFile :=
  fun path => .ok (fileExists path, "")

/-- Faults that abort table construction in `CplLog._create_html`: a
Python `IndexError` from `plot_list[j]`, or an exception raised by the
file-existence checker, propagated unchanged. -/
inductive BuilderFault where
  | indexError (j : Nat)
  | checkerFault (msg : String)

/-- Body of the inner column loop of `CplLog._create_html` for one column
index `j`: test the link name with the Python substring test, form the
candidate filename from `plot_list[j]` (an out-of-range index aborts),
query the checker on `workdir/filename` (a checker fault aborts), and
produce the tuple, with content `filename` when the file is readable and
`filename ++ " - Error"` otherwise. A link name matching neither branch
appends no cell, as in the source's `if`/`elif` with no `else`. -/
def buildColCell (workdir imgFormat : String) (plotList : List String)
    (linkName : String) (j : Nat) (checkFile : CheckFile) :
    Except BuilderFault (Option PlotTuple) :=
  if pyIn "timeseries" linkName then
    match plotList.get? j with
    | none => .error (.indexError j)
    | some base =>
      let img_file := base ++ "." ++ imgFormat
      match checkFile (workdir ++ "/" ++ img_file) with
      | .error msg => .error (.checkerFault msg)
      | .ok (rc, _err_msg) =>
        if !rc then .ok (some (j + 1, linkName, img_file ++ " - Error"))
        else .ok (some (j + 1, linkName, img_file))
  else if pyIn "table" linkName then
    match plotList.get? j with
    | none => .error (.indexError j)
    | some base =>
      let asc_file := base ++ "." ++ "asc"
      match checkFile (workdir ++ "/" ++ asc_file) with
      | .error msg => .error (.checkerFault msg)
      | .ok (rc, _err_msg) =>
        if !rc then .ok (some (j + 1, linkName, asc_file ++ " - Error"))
        else .ok (some (j + 1, linkName, asc_file))
  else
    .ok none

/-- The inner loop `for j in range(num_cols - 1)` of
`CplLog._create_html`, iterating the column index over the link names
starting at `j`; the loop bound `num_cols - 1` equals the length of
`self._linkNames` in the source. Faults abort the whole loop as a Python
exception would. -/
def buildCells (workdir imgFormat : String) (plotList : List String)
    (checkFile : CheckFile) : List String → Nat →
    Except BuilderFault (List PlotTuple)
  | [], _ => .ok []
  | linkName :: rest, j =>
    match buildColCell workdir imgFormat plotList linkName j checkFile with
    | .error e => .error e
    | .ok c =>
      match buildCells workdir imgFormat plotList checkFile rest (j + 1) with
      | .error e => .error e
      | .ok cs =>
        match c with
        | none => .ok cs
        | some cell => .ok (cell :: cs)

/-- One iteration of the outer row loop of `CplLog._create_html`: the
label tuple `(0, "label", label ++ ":")` followed by the column cells. -/
def buildRow (workdir imgFormat : String) (spec : PlotSpec)
    (checkFile : CheckFile) (label : String) :
    Except BuilderFault (List PlotTuple) :=
  match buildCells workdir imgFormat spec.expectedPlots checkFile spec.linkNames 0 with
  | .error e => .error e
  | .ok cells => .ok ((0, "label", label ++ ":") :: cells)

/-- The outer loop `for i in range(len(self._labels))` of
`CplLog._create_html`, appending one row per label. -/
def buildRows (workdir imgFormat : String) (spec : PlotSpec)
    (checkFile : CheckFile) : List String →
    Except BuilderFault (List (List PlotTuple))
  | [] => .ok []
  | label :: rest =>
    match buildRow workdir imgFormat spec checkFile label with
    | .error e => .error e
    | .ok row =>
      match buildRows workdir imgFormat spec checkFile rest with
      | .error e => .error e
      | .ok rows => .ok (row :: rows)

/-- The `plot_table` value assembled by `CplLog._create_html` before it
is handed to the template renderer. -/
def createHtmlTable (workdir imgFormat : String) (spec : PlotSpec)
    (checkFile : CheckFile) : Except BuilderFault (List (List PlotTuple)) :=
  buildRows workdir imgFormat spec checkFile spec.labels

/-- The `plot_list` loop of `WesternBoundary._create_html`: for each
expected plot base name, query the checker on `workdir/base.imgFormat`
and append the base name, suffixed with " - Error" when the file is
missing. Note the appended content is the base name without the
extension in both branches. -/
def westernBoundaryRow (workdir imgFormat : String) (checkFile : CheckFile) :
    List String → Except String (List String)
  | [] => .ok []
  | plot_file :: rest =>
    let img_file := plot_file ++ "." ++ imgFormat
    match checkFile (workdir ++ "/" ++ img_file) with
    | .error msg => .error msg
    | .ok (rc, _err_msg) =>
      match westernBoundaryRow workdir imgFormat checkFile rest with
      | .error msg => .error msg
      | .ok tail =>
        if !rc then .ok ((plot_file ++ " - Error") :: tail)
        else .ok (plot_file :: tail)

/-- The `plot_table` value assembled by `WesternBoundary._create_html`:
a single row holding the whole `plot_list`. -/
def westernBoundaryPlotTable (workdir imgFormat : String)
    (expectedPlots : List String) (checkFile : CheckFile) :
    Except String (List (List String)) :=
  match westernBoundaryRow workdir imgFormat checkFile expectedPlots with
  | .error msg => .error msg
  | .ok plot_list => .ok [plot_list]

/-- A link name that takes one of the two branches of the column loop:
it contains "timeseries" (the image kind) or contains "table" (the
tabular kind). -/
def validKind (linkName : String) : Prop :=
  pyIn "timeseries" linkName = true ∨ pyIn "table" linkName = true

instance (linkName : String) : Decidable (validKind linkName) := by
  unfold validKind; infer_instance

/-- A spec whose three lists have equal lengths and whose column kinds
all take a branch of the column loop. -/
def PlotSpec.wellFormed (s : PlotSpec) : Prop :=
  s.labels.length = s.expectedPlots.length ∧
  s.linkNames.length = s.expectedPlots.length ∧
  ∀ ln ∈ s.linkNames, validKind ln

instance (s : PlotSpec) : Decidable s.wellFormed := by
  unfold PlotSpec.wellFormed; infer_instance

/-- The candidate filename queried for a column, as in the spec's
algorithm step 2: image columns use the configured image extension,
table columns the fixed extension "asc". -/
def candidateFile (imgFormat artifact linkName : String) : String :=
  if pyIn "timeseries" linkName then artifact ++ "." ++ imgFormat
  else artifact ++ "." ++ "asc"

/-- Closed form of the cell produced at column index `j` when the
checker never faults. -/
def mkCell (workdir imgFormat : String) (plotList : List String)
    (fileExists : String → Bool) (j : Nat) (linkName : String) : PlotTuple :=
  (j + 1, linkName,
    if fileExists (workdir ++ "/" ++ candidateFile imgFormat (plotList.getD j "") linkName)
    then candidateFile imgFormat (plotList.getD j "") linkName
    else candidateFile imgFormat (plotList.getD j "") linkName ++ " - Error")

/-- Closed form of the list of cells produced by the column loop when
the checker never faults. -/
def cellsFrom (workdir imgFormat : String) (plotList : List String)
    (fileExists : String → Bool) : List String → Nat → List PlotTuple
  | [], _ => []
  | linkName :: rest, j =>
    mkCell workdir imgFormat plotList fileExists j linkName ::
      cellsFrom workdir imgFormat plotList fileExists rest (j + 1)

/-- The non-label cells shared by every row of the table, in closed
form. -/
def cellsOf (workdir imgFormat : String) (spec : PlotSpec)
    (fileExists : String → Bool) : List PlotTuple :=
  cellsFrom workdir imgFormat spec.expectedPlots fileExists spec.linkNames 0

theorem getD_of_get?_eq_some {α : Type} (l : List α) (j : Nat) (d x : α)
    (h : l.get? j = some x) : l.getD j d = x := by
  rw [List.getD, h]; rfl

theorem cellsFrom_length (workdir imgFormat : String) (plotList : List String)
    (fileExists : String → Bool) :
    ∀ (lns : List String) (j0 : Nat),
      (cellsFrom workdir imgFormat plotList fileExists lns j0).length = lns.length
  | [], _ => rfl
  | _ :: rest, j0 => by
    simp [cellsFrom, cellsFrom_length workdir imgFormat plotList fileExists rest (j0 + 1)]

theorem cellsFrom_getD (workdir imgFormat : String) (plotList : List String)
    (fileExists : String → Bool) :
    ∀ (lns : List String) (j0 k : Nat), k < lns.length →
      (cellsFrom workdir imgFormat plotList fileExists lns j0).getD k (0, "", "") =
        mkCell workdir imgFormat plotList fileExists (j0 + k) (lns.getD k "")
  | [], _, k, hk => by simp at hk
  | ln :: rest, j0, 0, _ => by simp [cellsFrom, List.getD]
  | ln :: rest, j0, k + 1, hk => by
    have ih := cellsFrom_getD workdir imgFormat plotList fileExists rest (j0 + 1) k
      (by simpa using Nat.lt_of_succ_lt_succ hk)
    simp only [cellsFrom, List.getD, List.get?] at ih ⊢
    rw [ih]
    congr 1
    omega

theorem buildCells_pureCheck (workdir imgFormat : String) (plotList : List String)
    (fileExists : String → Bool) :
    ∀ (lns : List String) (j0 : Nat), (∀ ln ∈ lns, validKind ln) →
      j0 + lns.length ≤ plotList.length →
      buildCells workdir imgFormat plotList (pureCheck fileExists) lns j0 =
        .ok (cellsFrom workdir imgFormat plotList fileExists lns j0)
  | [], _, _, _ => rfl
  | ln :: rest, j0, hk, hlen => by
    have hj0 : j0 < plotList.length := by
      simp only [List.length_cons] at hlen; omega
    obtain ⟨x, hx⟩ : ∃ x, plotList.get? j0 = some x :=
      List.get?_eq_get hj0 ▸ ⟨_, rfl⟩
    have hxD : plotList.getD j0 "" = x := getD_of_get?_eq_some plotList j0 "" x hx
    have hxE : plotList[j0]? = some x := by simpa using hx
    have ih := buildCells_pureCheck workdir imgFormat plotList fileExists rest (j0 + 1)
      (fun l hl => hk l (List.mem_cons_of_mem ln hl))
      (by simp only [List.length_cons] at hlen; omega)
    have hkh : validKind ln := hk ln (List.mem_cons_self ln rest)
    simp only [buildCells, cellsFrom, ih]
    cases hts : pyIn "timeseries" ln with
    | true =>
      simp only [buildColCell, hts, if_true, hx, pureCheck]
      cases hfe : fileExists (workdir ++ "/" ++ (x ++ "." ++ imgFormat)) with
      | true =>
        simp [mkCell, candidateFile, hts, hxD, hxE, hfe]
      | false =>
        simp [mkCell, candidateFile, hts, hxD, hxE, hfe]
    | false =>
      have htb : pyIn "table" ln = true := by
        rcases hkh with h | h
        · rw [hts] at h; exact absurd h (by simp)
        · exact h
      simp only [buildColCell, hts, htb, if_true, Bool.false_eq_true, if_false, hx, pureCheck]
      cases hfe : fileExists (workdir ++ "/" ++ (x ++ "." ++ "asc")) with
      | true =>
        simp [mkCell, candidateFile, hts, hxD, hxE, hfe]
      | false =>
        simp [mkCell, candidateFile, hts, hxD, hxE, hfe]

theorem buildRows_pureCheck (workdir imgFormat : String) (spec : PlotSpec)
    (fileExists : String → Bool)
    (hk : ∀ ln ∈ spec.linkNames, validKind ln)
    (hlen : spec.linkNames.length ≤ spec.expectedPlots.length) :
    ∀ labels : List String,
      buildRows workdir imgFormat spec (pureCheck fileExists) labels =
        .ok (labels.map fun label =>
          (0, "label", label ++ ":") :: cellsOf workdir imgFormat spec fileExists)
  | [] => rfl
  | label :: rest => by
    have hc := buildCells_pureCheck workdir imgFormat spec.expectedPlots fileExists
      spec.linkNames 0 hk (by omega)
    have ih := buildRows_pureCheck workdir imgFormat spec fileExists hk hlen rest
    simp only [buildRows, buildRow, hc, ih, cellsOf, List.map_cons]

theorem createHtmlTable_pureCheck (workdir imgFormat : String) (spec : PlotSpec)
    (fileExists : String → Bool)
    (hk : ∀ ln ∈ spec.linkNames, validKind ln)
    (hlen : spec.linkNames.length ≤ spec.expectedPlots.length) :
    createHtmlTable workdir imgFormat spec (pureCheck fileExists) =
      .ok (spec.labels.map fun label =>
        (0, "label", label ++ ":") :: cellsOf workdir imgFormat spec fileExists) :=
  buildRows_pureCheck workdir imgFormat spec fileExists hk hlen spec.labels

theorem buildCells_indexFault (workdir imgFormat : String) (plotList : List String)
    (fileExists : String → Bool) :
    ∀ (lns : List String) (j0 : Nat), (∀ ln ∈ lns, validKind ln) →
      j0 ≤ plotList.length → plotList.length < j0 + lns.length →
      buildCells workdir imgFormat plotList (pureCheck fileExists) lns j0 =
        .error (.indexError plotList.length)
  | [], j0, _, hle, hlt => by simp only [List.length_nil] at hlt; omega
  | ln :: rest, j0, hk, hle, hlt => by
    have hkh : validKind ln := hk ln (List.mem_cons_self ln rest)
    rcases Nat.lt_or_ge j0 plotList.length with hj0 | hj0
    · obtain ⟨x, hx⟩ : ∃ x, plotList.get? j0 = some x :=
        List.get?_eq_get hj0 ▸ ⟨_, rfl⟩
      have ih := buildCells_indexFault workdir imgFormat plotList fileExists rest (j0 + 1)
        (fun l hl => hk l (List.mem_cons_of_mem ln hl))
        (by omega) (by simp only [List.length_cons] at hlt; omega)
      simp only [buildCells, ih]
      cases hts : pyIn "timeseries" ln with
      | true =>
        simp only [buildColCell, hts, if_true, hx, pureCheck]
        cases hfe : fileExists (workdir ++ "/" ++ (x ++ "." ++ imgFormat)) <;> simp [hfe]
      | false =>
        have htb : pyIn "table" ln = true := by
          rcases hkh with h | h
          · rw [hts] at h; exact absurd h (by simp)
          · exact h
        simp only [buildColCell, hts, htb, if_true, Bool.false_eq_true, if_false, hx, pureCheck]
        cases hfe : fileExists (workdir ++ "/" ++ (x ++ "." ++ "asc")) <;> simp [hfe]
    · have hj0e : j0 = plotList.length := by omega
      have hx : plotList.get? j0 = none := List.get?_eq_none.mpr (by omega)
      cases hts : pyIn "timeseries" ln with
      | true =>
        simp [buildCells, buildColCell, hts, hx, hj0e]
      | false =>
        have htb : pyIn "table" ln = true := by
          rcases hkh with h | h
          · rw [hts] at h; exact absurd h (by simp)
          · exact h
        simp [buildCells, buildColCell, hts, htb, hx, hj0e]

theorem westernBoundaryRow_pureCheck (workdir imgFormat : String)
    (fileExists : String → Bool) :
    ∀ plots : List String,
      westernBoundaryRow workdir imgFormat (pureCheck fileExists) plots =
        .ok (plots.map fun p =>
          if fileExists (workdir ++ "/" ++ (p ++ "." ++ imgFormat)) then p
          else p ++ " - Error")
  | [] => rfl
  | plot_file :: rest => by
    have ih := westernBoundaryRow_pureCheck workdir imgFormat fileExists rest
    cases hfe : fileExists (workdir ++ "/" ++ (plot_file ++ "." ++ imgFormat)) <;>
      simp [westernBoundaryRow, pureCheck, ih, hfe]

theorem westernBoundaryPlotTable_pureCheck (workdir imgFormat : String)
    (fileExists : String → Bool) (plots : List String) :
    westernBoundaryPlotTable workdir imgFormat plots (pureCheck fileExists) =
      .ok [plots.map fun p =>
        if fileExists (workdir ++ "/" ++ (p ++ "." ++ imgFormat)) then p
        else p ++ " - Error"] := by
  simp [westernBoundaryPlotTable, westernBoundaryRow_pureCheck workdir imgFormat fileExists plots]

theorem tableRow_getD (workdir imgFormat : String) (spec : PlotSpec)
    (fileExists : String → Bool) (i : Nat) (hi : i < spec.labels.length) :
    (spec.labels.map fun label =>
        (0, "label", label ++ ":") :: cellsOf workdir imgFormat spec fileExists).getD i [] =
      (0, "label", spec.labels.getD i "" ++ ":") ::
        cellsOf workdir imgFormat spec fileExists := by
  obtain ⟨lab, hlab⟩ : ∃ lab, spec.labels.get? i = some lab :=
    List.get?_eq_get hi ▸ ⟨_, rfl⟩
  have hmap : (spec.labels.map fun label =>
      (0, "label", label ++ ":") :: cellsOf workdir imgFormat spec fileExists).get? i =
      some ((0, "label", lab ++ ":") :: cellsOf workdir imgFormat spec fileExists) := by
    rw [List.get?_map, hlab]; rfl
  rw [getD_of_get?_eq_some _ i _ _ hmap, getD_of_get?_eq_some spec.labels i "" lab hlab]

theorem tableCell_getD (workdir imgFormat : String) (spec : PlotSpec)
    (fileExists : String → Bool) (c : PlotTuple) (j : Nat)
    (hj : j < spec.linkNames.length) :
    ((c :: cellsOf workdir imgFormat spec fileExists).getD (j + 1) (0, "", "")) =
      mkCell workdir imgFormat spec.expectedPlots fileExists j (spec.linkNames.getD j "") := by
  rw [List.getD_cons_succ]
  have h := cellsFrom_getD workdir imgFormat spec.expectedPlots fileExists
    spec.linkNames 0 j hj
  simpa [cellsOf] using h

/-- C1: for every well-formed spec (equal-length labels, artifacts and
column kinds, each kind taking a branch of the column loop) the table
built by `CplLog._create_html` with a never-faulting checker has exactly
one row per label, and every row has one label cell plus one cell per
column kind. -/
theorem c1_table_shape (workdir imgFormat : String) (spec : PlotSpec)
    (fileExists : String → Bool) (hwf : spec.wellFormed) :
    ∃ table, createHtmlTable workdir imgFormat spec (pureCheck fileExists) = .ok table ∧
      table.length = spec.labels.length ∧
      ∀ row ∈ table, row.length = spec.linkNames.length + 1 := by
  obtain ⟨h1, h2, h3⟩ := hwf
  refine ⟨_, createHtmlTable_pureCheck workdir imgFormat spec fileExists h3 (by omega),
    ?_, ?_⟩
  · simp
  · intro row hrow
    simp only [List.mem_map] at hrow
    obtain ⟨lab, -, rfl⟩ := hrow
    simp [cellsOf, cellsFrom_length]

/-- Witness for C1 at the concrete CplLog spec with every file present. -/
theorem c1_table_shape_witness :
    ∃ table, createHtmlTable "wd" "png" cplLogSpec (pureCheck fun _ => true) = .ok table ∧
      table.length = 2 := by
  obtain ⟨table, htab, hlen, -⟩ :=
    c1_table_shape "wd" "png" cplLogSpec (fun _ => true) (by decide)
  exact ⟨table, htab, hlen.trans rfl⟩

/-- C2 counterexample: in `WesternBoundary._create_html` the cell
recorded for the absent candidate file DWBC.png is "DWBC - Error", the
artifact base name without its extension, not
"DWBC.png - Error" as the claim requires. -/
theorem c2_counterexample :
    westernBoundaryPlotTable "wd" "png" ["DWBC"] (pureCheck fun _ => false) =
      .ok [["DWBC - Error"]] ∧
    ("DWBC - Error" : String) ≠ "DWBC.png" ++ " - Error" :=
  ⟨rfl, by decide⟩

/-- C2 (amended): when a candidate file is absent, `CplLog._create_html`
records the candidate filename with its extension followed by " - Error",
while `WesternBoundary._create_html` records the artifact base name
without the extension followed by " - Error". -/
theorem c2_missing_cell_content (workdir imgFormat : String) (spec : PlotSpec)
    (fileExists : String → Bool)
    (hk : ∀ ln ∈ spec.linkNames, validKind ln)
    (hlen : spec.linkNames.length ≤ spec.expectedPlots.length)
    (i j : Nat) (hi : i < spec.labels.length) (hj : j < spec.linkNames.length)
    (habs : fileExists (workdir ++ "/" ++
      candidateFile imgFormat (spec.expectedPlots.getD j "") (spec.linkNames.getD j "")) =
      false) :
    (∃ table, createHtmlTable workdir imgFormat spec (pureCheck fileExists) = .ok table ∧
      (table.getD i []).getD (j + 1) (0, "", "") =
        (j + 1, spec.linkNames.getD j "",
          candidateFile imgFormat (spec.expectedPlots.getD j "") (spec.linkNames.getD j "") ++
            " - Error")) ∧
    ∀ plots : List String,
      (∀ p ∈ plots, fileExists (workdir ++ "/" ++ (p ++ "." ++ imgFormat)) = false) →
      westernBoundaryPlotTable workdir imgFormat plots (pureCheck fileExists) =
        .ok [plots.map fun p => p ++ " - Error"] := by
  constructor
  · refine ⟨_, createHtmlTable_pureCheck workdir imgFormat spec fileExists hk hlen, ?_⟩
    rw [tableRow_getD workdir imgFormat spec fileExists i hi,
      tableCell_getD workdir imgFormat spec fileExists _ j hj]
    simp only [mkCell, habs]
    simp
  · intro plots hall
    rw [westernBoundaryPlotTable_pureCheck]
    congr 2
    refine List.map_congr_left fun p hp => ?_
    rw [hall p hp]
    simp

/-- Witness for C2 at the concrete CplLog spec with every file absent. -/
theorem c2_missing_cell_content_witness :
    ∃ table, createHtmlTable "wd" "png" cplLogSpec (pureCheck fun _ => false) = .ok table ∧
      (table.getD 0 []).getD 1 (0, "", "") =
        (1, "timeseries", "cplheatbudget.png - Error") := by
  obtain ⟨⟨table, htab, hcell⟩, -⟩ :=
    c2_missing_cell_content "wd" "png" cplLogSpec (fun _ => false)
      (by decide) (by decide) 0 0 (by decide) (by decide) rfl
  exact ⟨table, htab, hcell.trans (by decide)⟩

/-- C3 counterexample: in `WesternBoundary._create_html`, even when the
candidate file DWBC.png exists, the cell content is the base name
"DWBC", not the plain candidate filename "DWBC.png". -/
theorem c3_counterexample :
    westernBoundaryPlotTable "wd" "png" ["DWBC"] (pureCheck fun _ => true) =
      .ok [["DWBC"]] ∧
    ("DWBC" : String) ≠ "DWBC.png" :=
  ⟨rfl, by decide⟩

/-- C3 (amended): when every candidate file exists, every non-label cell
of the `CplLog._create_html` table carries exactly the plain candidate
filename with its extension, while every cell of the
`WesternBoundary._create_html` table carries the artifact base name
without the extension; no " - Error" suffix is appended anywhere. -/
theorem c3_all_present (workdir imgFormat : String) (spec : PlotSpec)
    (fileExists : String → Bool)
    (hk : ∀ ln ∈ spec.linkNames, validKind ln)
    (hlen : spec.linkNames.length ≤ spec.expectedPlots.length)
    (hall : ∀ p, fileExists p = true) :
    (∃ table, createHtmlTable workdir imgFormat spec (pureCheck fileExists) = .ok table ∧
      ∀ i j, i < spec.labels.length → j < spec.linkNames.length →
        (table.getD i []).getD (j + 1) (0, "", "") =
          (j + 1, spec.linkNames.getD j "",
            candidateFile imgFormat (spec.expectedPlots.getD j "")
              (spec.linkNames.getD j ""))) ∧
    ∀ plots : List String,
      westernBoundaryPlotTable workdir imgFormat plots (pureCheck fileExists) =
        .ok [plots] := by
  constructor
  · refine ⟨_, createHtmlTable_pureCheck workdir imgFormat spec fileExists hk hlen, ?_⟩
    intro i j hi hj
    rw [tableRow_getD workdir imgFormat spec fileExists i hi,
      tableCell_getD workdir imgFormat spec fileExists _ j hj]
    simp only [mkCell, hall]
    simp
  · intro plots
    rw [westernBoundaryPlotTable_pureCheck]
    congr 2
    refine (List.map_congr_left fun p _ => ?_).trans (List.map_id plots)
    simp [hall]

/-- Witness for C3 at the concrete CplLog spec with every file present. -/
theorem c3_all_present_witness :
    ∃ table, createHtmlTable "wd" "png" cplLogSpec (pureCheck fun _ => true) = .ok table ∧
      (table.getD 1 []).getD 2 (0, "", "") = (2, "table", "cplfwbudget.asc") := by
  obtain ⟨⟨table, htab, hcell⟩, -⟩ :=
    c3_all_present "wd" "png" cplLogSpec (fun _ => true)
      (by decide) (by decide) (fun _ => rfl)
  exact ⟨table, htab, (hcell 1 1 (by decide) (by decide)).trans (by decide)⟩

/-- C4: the candidate filename queried and recorded for a column depends
only on the column kind: a link name containing "timeseries" (the image
kind) uses the caller-supplied image-format extension, and any other
valid link name (the table kind) uses the fixed extension "asc". -/
theorem c4_extension_by_kind (workdir imgFormat : String) (spec : PlotSpec)
    (fileExists : String → Bool)
    (hk : ∀ ln ∈ spec.linkNames, validKind ln)
    (hlen : spec.linkNames.length ≤ spec.expectedPlots.length)
    (i j : Nat) (hi : i < spec.labels.length) (hj : j < spec.linkNames.length) :
    ∃ table, createHtmlTable workdir imgFormat spec (pureCheck fileExists) = .ok table ∧
      (pyIn "timeseries" (spec.linkNames.getD j "") = true →
        (table.getD i []).getD (j + 1) (0, "", "") =
          (j + 1, spec.linkNames.getD j "",
            if fileExists (workdir ++ "/" ++
                (spec.expectedPlots.getD j "" ++ "." ++ imgFormat))
            then spec.expectedPlots.getD j "" ++ "." ++ imgFormat
            else spec.expectedPlots.getD j "" ++ "." ++ imgFormat ++ " - Error")) ∧
      (pyIn "timeseries" (spec.linkNames.getD j "") = false →
        (table.getD i []).getD (j + 1) (0, "", "") =
          (j + 1, spec.linkNames.getD j "",
            if fileExists (workdir ++ "/" ++
                (spec.expectedPlots.getD j "" ++ "." ++ "asc"))
            then spec.expectedPlots.getD j "" ++ "." ++ "asc"
            else spec.expectedPlots.getD j "" ++ "." ++ "asc" ++ " - Error")) := by
  refine ⟨_, createHtmlTable_pureCheck workdir imgFormat spec fileExists hk hlen, ?_, ?_⟩
  · intro hts
    rw [tableRow_getD workdir imgFormat spec fileExists i hi,
      tableCell_getD workdir imgFormat spec fileExists _ j hj]
    simp only [mkCell, candidateFile, hts, if_true]
  · intro hts
    rw [tableRow_getD workdir imgFormat spec fileExists i hi,
      tableCell_getD workdir imgFormat spec fileExists _ j hj]
    simp only [mkCell, candidateFile, hts, Bool.false_eq_true, if_false]

/-- Witness for C4 at the concrete CplLog spec: the table-kind column
uses the "asc" extension. -/
theorem c4_extension_by_kind_witness :
    ∃ table, createHtmlTable "wd" "png" cplLogSpec (pureCheck fun _ => true) = .ok table ∧
      (table.getD 0 []).getD 2 (0, "", "") = (2, "table", "cplfwbudget.asc") := by
  obtain ⟨table, htab, -, h2⟩ :=
    c4_extension_by_kind "wd" "png" cplLogSpec (fun _ => true)
      (by decide) (by decide) 0 1 (by decide) (by decide)
  exact ⟨table, htab, (h2 (by decide)).trans (by decide)⟩

/-- C5 counterexample: in the spec's scenario (CplLog spec, image format
"png", cplheatbudget.png present, cplfwbudget.asc absent) row 1's cell
at index 1 carries "cplheatbudget.png", not the
"cplfwbudget.asc - Error" the claim expects; the error string sits at
index 2 of every row. -/
theorem c5_counterexample :
    createHtmlTable "wd" "png" cplLogSpec
      (pureCheck fun p => p == "wd/cplheatbudget.png") =
      .ok [[(0, "label", "Heat:"), (1, "timeseries", "cplheatbudget.png"),
            (2, "table", "cplfwbudget.asc - Error")],
           [(0, "label", "Freshwater:"), (1, "timeseries", "cplheatbudget.png"),
            (2, "table", "cplfwbudget.asc - Error")]] ∧
    ("cplheatbudget.png" : String) ≠ "cplfwbudget.asc - Error" :=
  ⟨rfl, by decide⟩

/-- C5 (amended): in the scenario the builder returns a table with 2
rows; row 0's cell at index 1 has content "cplheatbudget.png", and the
content "cplfwbudget.asc - Error" appears at index 2 of row 1 (and of
row 0), while row 1's cell at index 1 repeats "cplheatbudget.png",
because non-label cells depend only on the column index. -/
theorem c5_scenario_table :
    ∃ table, createHtmlTable "wd" "png" cplLogSpec
      (pureCheck fun p => p == "wd/cplheatbudget.png") = .ok table ∧
      table.length = 2 ∧
      (table.getD 0 []).getD 1 (0, "", "") = (1, "timeseries", "cplheatbudget.png") ∧
      (table.getD 1 []).getD 1 (0, "", "") = (1, "timeseries", "cplheatbudget.png") ∧
      (table.getD 0 []).getD 2 (0, "", "") = (2, "table", "cplfwbudget.asc - Error") ∧
      (table.getD 1 []).getD 2 (0, "", "") = (2, "table", "cplfwbudget.asc - Error") :=
  ⟨_, rfl, rfl, rfl, rfl, rfl, rfl⟩

/-- C6: with the spec's pure boolean file-existence collaborator,
missing files never abort construction: `CplLog._create_html` always
returns the full table with one row per label, and
`WesternBoundary._create_html` always returns its single full row. -/
theorem c6_never_aborts (workdir imgFormat : String) (spec : PlotSpec)
    (fileExists : String → Bool) (hwf : spec.wellFormed) :
    (∃ table, createHtmlTable workdir imgFormat spec (pureCheck fileExists) = .ok table ∧
      table.length = spec.labels.length) ∧
    ∀ plots : List String, ∃ row,
      westernBoundaryPlotTable workdir imgFormat plots (pureCheck fileExists) =
        .ok [row] ∧ row.length = plots.length := by
  obtain ⟨h1, h2, h3⟩ := hwf
  constructor
  · exact ⟨_, createHtmlTable_pureCheck workdir imgFormat spec fileExists h3 (by omega),
      by simp⟩
  · intro plots
    exact ⟨_, westernBoundaryPlotTable_pureCheck workdir imgFormat fileExists plots,
      by simp⟩

/-- Witness for C6: the western-boundary builder returns a full one-cell
row even when the only candidate file is absent. -/
theorem c6_never_aborts_witness :
    ∃ row, westernBoundaryPlotTable "wd" "png" ["DWBC"] (pureCheck fun _ => false) =
      .ok [row] ∧ row.length = 1 := by
  obtain ⟨-, h2⟩ := c6_never_aborts "wd" "png" cplLogSpec (fun _ => false) (by decide)
  obtain ⟨row, hrow, hl⟩ := h2 ["DWBC"]
  exact ⟨row, hrow, hl.trans rfl⟩

/-- C7 counterexample: with an empty label list the builder runs no
loop iteration, so even though expectedArtifacts (empty) has fewer
entries than columnKinds (one entry), no index-out-of-range fault is
raised and the empty table is returned. -/
theorem c7_counterexample :
    (([] : List String).length < (["table"] : List String).length) ∧
    createHtmlTable "wd" "png"
      { expectedPlots := [], labels := [], linkNames := ["table"] }
      (pureCheck fun _ => true) = .ok [] :=
  ⟨by decide, rfl⟩

/-- C7 (amended): for every spec whose label list is nonempty, whose
column kinds each take a branch of the loop, and whose artifact list has
fewer entries than its column kinds, the builder does not silently
truncate: it aborts with an index-out-of-range fault at the first index
past the artifact list. -/
theorem c7_index_fault (workdir imgFormat : String) (spec : PlotSpec)
    (fileExists : String → Bool)
    (hk : ∀ ln ∈ spec.linkNames, validKind ln)
    (hlt : spec.expectedPlots.length < spec.linkNames.length)
    (hne : spec.labels ≠ []) :
    createHtmlTable workdir imgFormat spec (pureCheck fileExists) =
      .error (.indexError spec.expectedPlots.length) := by
  obtain ⟨lab, rest, hlab⟩ : ∃ lab rest, spec.labels = lab :: rest := by
    cases h : spec.labels with
    | nil => exact absurd h hne
    | cons a l => exact ⟨a, l, rfl⟩
  have hc := buildCells_indexFault workdir imgFormat spec.expectedPlots fileExists
    spec.linkNames 0 hk (by omega) (by omega)
  simp [createHtmlTable, hlab, buildRows, buildRow, hc]

/-- Witness for C7: one label, one table-kind column, no artifacts. -/
theorem c7_index_fault_witness :
    createHtmlTable "wd" "png"
      { expectedPlots := [], labels := ["L"], linkNames := ["table"] }
      (pureCheck fun _ => true) = .error (.indexError 0) :=
  c7_index_fault "wd" "png"
    { expectedPlots := [], labels := ["L"], linkNames := ["table"] }
    (fun _ => true) (by decide) (by decide) (by decide)

/-- C8: when the existence checker raises a fault distinct from a plain
missing file, both builders propagate the fault to the caller unchanged
instead of recording an error-placeholder cell:
`CplLog._create_html` surfaces it as the checker-fault case carrying the
same message, and `WesternBoundary._create_html` returns the message
itself. -/
theorem c8_checker_fault (workdir imgFormat lab art ln msg : String)
    (restLabels restArts restLns : List String) (checkFile : CheckFile)
    (hk : validKind ln)
    (hfault : checkFile (workdir ++ "/" ++ candidateFile imgFormat art ln) =
      .error msg) :
    createHtmlTable workdir imgFormat
      { expectedPlots := art :: restArts, labels := lab :: restLabels,
        linkNames := ln :: restLns } checkFile = .error (.checkerFault msg) ∧
    ∀ (p : String) (restPlots : List String),
      checkFile (workdir ++ "/" ++ (p ++ "." ++ imgFormat)) = .error msg →
      westernBoundaryPlotTable workdir imgFormat (p :: restPlots) checkFile =
        .error msg := by
  constructor
  · cases hts : pyIn "timeseries" ln with
    | true =>
      have hf2 : checkFile (workdir ++ "/" ++ (art ++ "." ++ imgFormat)) = .error msg := by
        simpa [candidateFile, hts] using hfault
      simp [createHtmlTable, buildRows, buildRow, buildCells, buildColCell, hts, hf2]
    | false =>
      have htb : pyIn "table" ln = true := by
        rcases hk with h | h
        · rw [hts] at h; exact absurd h (by simp)
        · exact h
      have hf2 : checkFile (workdir ++ "/" ++ (art ++ "." ++ "asc")) = .error msg := by
        simpa [candidateFile, hts] using hfault
      simp [createHtmlTable, buildRows, buildRow, buildCells, buildColCell, hts, htb, hf2]
  · intro p restPlots hp
    simp [westernBoundaryPlotTable, westernBoundaryRow, hp]

/-- Witness for C8: a checker that faults with "io" on the single
queried path aborts the build with that fault. -/
theorem c8_checker_fault_witness :
    createHtmlTable "wd" "png"
      { expectedPlots := ["a"], labels := ["L"], linkNames := ["timeseries"] }
      (fun p => if p = "wd/a.png" then .error "io" else .ok (true, "")) =
      .error (.checkerFault "io") :=
  (c8_checker_fault "wd" "png" "L" "a" "timeseries" "io" [] [] []
    (fun p => if p = "wd/a.png" then .error "io" else .ok (true, ""))
    (by decide) rfl).1

/-- C9: the builders are deterministic in their inputs: two runs with
identical arguments and a file-existence collaborator giving the same
answer on every path produce structurally equal results. -/
theorem c9_deterministic (workdir imgFormat : String) (spec : PlotSpec)
    (f g : String → Bool) (hagree : ∀ p, f p = g p) :
    createHtmlTable workdir imgFormat spec (pureCheck f) =
      createHtmlTable workdir imgFormat spec (pureCheck g) ∧
    ∀ plots : List String,
      westernBoundaryPlotTable workdir imgFormat plots (pureCheck f) =
        westernBoundaryPlotTable workdir imgFormat plots (pureCheck g) := by
  have hfg : f = g := funext hagree
  subst hfg
  exact ⟨rfl, fun _ => rfl⟩

/-- Witness for C9 at the concrete CplLog spec. -/
theorem c9_deterministic_witness :
    createHtmlTable "wd" "png" cplLogSpec (pureCheck fun _ => true) =
      createHtmlTable "wd" "png" cplLogSpec (pureCheck fun _ => true) :=
  (c9_deterministic "wd" "png" cplLogSpec (fun _ => true) (fun _ => true)
    (fun _ => rfl)).1

/-- C10: every row of the table built by `CplLog._create_html` is the
label cell followed by one shared list of non-label cells, which depends
only on the column data; hence any two rows have identical tails and
differ only in their label cell. -/
theorem c10_rows_share_nonlabel_cells (workdir imgFormat : String) (spec : PlotSpec)
    (fileExists : String → Bool)
    (hk : ∀ ln ∈ spec.linkNames, validKind ln)
    (hlen : spec.linkNames.length ≤ spec.expectedPlots.length) :
    ∃ table, createHtmlTable workdir imgFormat spec (pureCheck fileExists) = .ok table ∧
      (∀ i, i < spec.labels.length →
        table.getD i [] = (0, "label", spec.labels.getD i "" ++ ":") ::
          cellsOf workdir imgFormat spec fileExists) ∧
      ∀ i1 i2, i1 < spec.labels.length → i2 < spec.labels.length →
        (table.getD i1 []).tail = (table.getD i2 []).tail := by
  refine ⟨_, createHtmlTable_pureCheck workdir imgFormat spec fileExists hk hlen, ?_, ?_⟩
  · intro i hi
    exact tableRow_getD workdir imgFormat spec fileExists i hi
  · intro i1 i2 h1 h2
    rw [tableRow_getD workdir imgFormat spec fileExists i1 h1,
      tableRow_getD workdir imgFormat spec fileExists i2 h2]
    rfl

/-- Witness for C10 at the concrete CplLog spec: the Heat and Freshwater
rows have identical non-label cells. -/
theorem c10_rows_share_nonlabel_cells_witness :
    ∃ table, createHtmlTable "wd" "png" cplLogSpec (pureCheck fun _ => true) = .ok table ∧
      (table.getD 0 []).tail = (table.getD 1 []).tail := by
  obtain ⟨table, htab, -, heq⟩ :=
    c10_rows_share_nonlabel_cells "wd" "png" cplLogSpec (fun _ => true)
      (by decide) (by decide)
  exact ⟨table, htab, heq 0 1 (by decide) (by decide)⟩
